import Mathlib

/-!
# The metadata-store access layer of sx (`server/src/common/sxdbi.c`)

A shallow embedding of the transaction manager, the statement executor, the
busy-retry loop, the checkpoint scheduler, the log classification and the
path-match predicate, followed by the properties proved about them.

Conventions of the embedding.

* The SQLite engine is an external collaborator.  What it answers is an
  input of the embedded function: the return code of every
  `sqlite3_prepare_v2` attempt, of every `sqlite3_step`, the value read
  back from `PRAGMA busy_timeout`, the change counter, the result of a
  checkpoint, the clock.  A property quantified over
  these inputs holds for every behaviour of the engine.
* The calls a function makes on the engine are returned as a list of
  `Event`s, in program order.
* The log macros (`WARN`, `INFO`, `DEBUG`, `CRIT`, `SQLERR`, `NULLARG`) and
  `msg_set_busy` write to the process logger only; they read or write neither
  the connection nor a statement and are left out.  So is the query-plan
  capture `qexplain`, which runs under debug logging only.
* A `NULL` connection is `none`.
-/

namespace Sxdbi

/-! ## Engine result codes (sqlite3.h) -/

def SQLITE_OK : Int := 0
def SQLITE_ERROR : Int := 1
def SQLITE_BUSY : Int := 5
def SQLITE_LOCKED : Int := 6
def SQLITE_IOERR : Int := 10
def SQLITE_CORRUPT : Int := 11
def SQLITE_FULL : Int := 13
def SQLITE_CANTOPEN : Int := 14
def SQLITE_SCHEMA : Int := 17
def SQLITE_CONSTRAINT : Int := 19
def SQLITE_NOTADB : Int := 26
def SQLITE_NOTICE : Int := 27
def SQLITE_ROW : Int := 100
def SQLITE_DONE : Int := 101

/-! ## Checkpoint modes (sqlite3.h) -/

def SQLITE_CHECKPOINT_PASSIVE : Int := 0
def SQLITE_CHECKPOINT_RESTART : Int := 2

/-! ## Data model -/

/-- The `struct timeval` of `gettimeofday`. -/
structure timeval where
  tv_sec : Int
  tv_usec : Int
deriving DecidableEq

/-- The connection `sxi_db_t`: the engine handle and the scheduling state
kept next to it. -/
structure sxi_db_t where
  handle : Nat
  wal_pages : Int
  tv_last : timeval
  last_total_changes : Int
  tv_begin : timeval
  has_begin_time : Int
deriving DecidableEq

/-- Calls made on the engine and on the operating system, in program order. -/
inductive Event where
  | prepare (query : String)
  | sqlite3_sleep (ms : Nat)
  | step
  | reset
  | finalize
  | column_int
  | us_delays_read (index : Nat)
  | usleep (us : Nat)
  | total_changes
  | wal_checkpoint (kind : Int)
deriving DecidableEq

/-! ## Statement preparation -/

/-- The `for(i=0; i<30; i++)` loop of `qprep_db`: `prepare i` is what the
`i`-th call of `sqlite3_prepare_v2` returns, `left` the number of iterations
still allowed, `ret` the value of the variable `ret` on entry. -/
def qprep_db_loop (prepare : Nat → Int) (query : String) : Nat → Nat → Int → Int × List Event
  | 0, _, ret => (ret, [])
  | left + 1, i, _ =>
    let ret := prepare i
    if ret = SQLITE_BUSY then
      let rest := qprep_db_loop prepare query left (i + 1) ret
      (rest.1, Event.prepare query :: Event.sqlite3_sleep 100 :: rest.2)
    else
      (ret, [Event.prepare query])

/-- `qprep_db`: up to thirty attempts while the engine is busy; `-1` when
the last attempt did not return `SQLITE_OK`, `0` otherwise. -/
def qprep_db (prepare : Nat → Int) (query : String) : Int × List Event :=
  let r := qprep_db_loop prepare query 30 0 SQLITE_OK
  if r.1 ≠ 0 then (-1, r.2) else (0, r.2)

/-- `qprep`: refuses a `NULL` connection without touching the engine. -/
def qprep (db : Option sxi_db_t) (prepare : Nat → Int) (query : String) : Int × List Event :=
  match db with
  | none => (-1, [])
  | some _ => qprep_db prepare query

/-! ## Statement execution -/

/-- `qstep`: one `sqlite3_step` returning `ret`; every outcome other than
`SQLITE_ROW` resets the statement. -/
def qstep (ret : Int) : Int × List Event :=
  (ret, Event.step :: (if ret ≠ SQLITE_ROW then [Event.reset] else []))

/-- `qstep_expect`: `0` when the outcome is the expected one, else `-1`;
an unexpected row or an unexpected error resets the statement once more. -/
def qstep_expect (step_rc : Int) (expect : Int) : Int × List Event :=
  let r := qstep step_rc
  if r.1 = expect then (0, r.2)
  else if r.1 = SQLITE_DONE then (-1, r.2)
  else if r.1 = SQLITE_ROW then (-1, r.2 ++ [Event.reset])
  else (-1, r.2 ++ [Event.reset])

/-- The macro `qstep_ret(q)`. -/
def qstep_ret (step_rc : Int) : Int × List Event := qstep_expect step_rc SQLITE_ROW

/-- The macro `qstep_noret(q)`. -/
def qstep_noret (step_rc : Int) : Int × List Event := qstep_expect step_rc SQLITE_DONE

/-! ## Transactions -/

/-- `qelapsed`: the time since `tv_begin` when the connection has a begin
time, the constant `0.0` otherwise.  `timediff` (utils.c) and the C `double`
it returns are parameters. -/
def qelapsed {R : Type} [Zero R] (timediff : timeval → timeval → R) (now : timeval)
    (db : Option sxi_db_t) : R :=
  match db with
  | some d => if d.has_begin_time ≠ 0 then timediff d.tv_begin now else 0
  | none => 0

/-- `qdone`: clears `has_begin_time`; nothing on a `NULL` connection. -/
def qdone (db : Option sxi_db_t) : Option sxi_db_t :=
  match db with
  | none => none
  | some d => some { d with has_begin_time := 0 }

/-- `qcommit_real`: returns at once with `-1` when `COMMIT` cannot be
prepared; otherwise steps it expecting `SQLITE_DONE`, finalizes, and calls
`qdone`.  Result: return value, connection afterwards, engine calls. -/
def qcommit_real (db : Option sxi_db_t) (prepare : Nat → Int) (step_rc : Int) :
    Int × Option sxi_db_t × List Event :=
  let p := qprep db prepare "COMMIT"
  if p.1 ≠ 0 then (-1, db, p.2)
  else
    let s := qstep_noret step_rc
    (s.1, qdone db, p.2 ++ s.2 ++ [Event.finalize])

/-- `qrollback_real`: nothing on a `NULL` connection; otherwise prepares
`ROLLBACK`, steps it when the preparation succeeded (the `||` does not
evaluate its right operand otherwise), finalizes and calls `qdone`. -/
def qrollback_real (db : Option sxi_db_t) (prepare : Nat → Int) (step_rc : Int) :
    Option sxi_db_t × List Event :=
  match db with
  | none => (none, [])
  | some d =>
    let p := qprep (some d) prepare "ROLLBACK"
    let ev := if p.1 ≠ 0 then p.2 else p.2 ++ (qstep_noret step_rc).2
    (qdone (some d), ev ++ [Event.finalize])

/-! ## Machine integers -/

/-- Conversion to `unsigned int`. -/
def u32 (n : Int) : Nat := (n % 2 ^ 32).toNat

/-- Conversion to `int`. -/
def i32 (n : Int) : Int := (n + 2 ^ 31) % 2 ^ 32 - 2 ^ 31

/-! ## The busy-retry loop -/

/-- The table `us_delays` of `qstep_retry`, in microseconds. -/
def us_delays : List Nat :=
  [1*1000, 2*1000, 5*1000, 10*1000, 15*1000, 20*1000, 25*1000, 25*1000, 25*1000, 50*1000,
    50*1000, 100*1000]

/-- What the engine and the clock answer during one pass of the `while` of
`qstep_retry`: `rc` is the return of `sqlite3_step(q)`; `pragma_prepare`,
`pragma_step` and `pragma_value` are the answers to the read of
`PRAGMA busy_timeout` when the pass makes it; `ms_dt` is
`timediff(&t1, &t2) * 1000` as stored in the `unsigned` variable. -/
structure StepObs where
  rc : Int
  pragma_prepare : Nat → Int
  pragma_step : Int
  pragma_value : Int
  ms_dt : Nat

/-- Ways a run of the model stops without a result of the C function. -/
inductive Fault where
  | script_exhausted
  | table_overrun
deriving DecidableEq

/-- The block guarded by `if (!ms_timeout)`: the timeout read from the
engine, `25 * 1000` when the read fails. -/
def busy_timeout_read (o : StepObs) : Nat × List Event :=
  let p := qprep_db o.pragma_prepare "PRAGMA busy_timeout"
  if p.1 ≠ 0 then (25 * 1000, p.2 ++ [Event.finalize])
  else
    let s := qstep_ret o.pragma_step
    if s.1 ≠ 0 then (25 * 1000, p.2 ++ s.2 ++ [Event.finalize])
    else (u32 o.pragma_value, p.2 ++ s.2 ++ [Event.column_int, Event.finalize])

/-- State after one pass of the loop on a `SQLITE_BUSY` outcome; `slept`
is `none` when the pass leaves the loop through `break`. -/
structure BusyPass where
  curdelay : Nat
  ms_timeout : Nat
  slept : Option Nat
  events : List Event

/-- The body of the `while` of `qstep_retry`, after `us_delay` has been read
from the table.  All quantities are `unsigned int`; the subtraction
`ms_timeout - ms_dt` is only evaluated when `ms_dt < ms_timeout`. -/
def qstep_retry_busy (us_delay curdelay ms_timeout : Nat) (o : StepObs) : BusyPass :=
  let curdelay1 := if curdelay < us_delays.length - 1 then curdelay + 1 else curdelay
  let t := if ms_timeout = 0 then busy_timeout_read o else (ms_timeout, [])
  let ms_dt := o.ms_dt % 2 ^ 32
  if ms_dt ≥ t.1 then
    { curdelay := curdelay1, ms_timeout := t.1, slept := none, events := Event.reset :: t.2 }
  else
    let d := ((t.1 - ms_dt) * 1000) % 2 ^ 32
    let us := if d < us_delay then d else us_delay
    { curdelay := curdelay1, ms_timeout := t.1, slept := some us,
      events := Event.reset :: t.2 ++ [Event.usleep us] }

/-- The `while` of `qstep_retry` run against the successive answers of the
engine.  A read past the end of `us_delays` is `Fault.table_overrun`; a
script that ends while the loop still runs is `Fault.script_exhausted`. -/
def qstep_retry_loop : List StepObs → Nat → Nat → Except Fault (Int × List Event)
  | [], _, _ => Except.error Fault.script_exhausted
  | o :: rest, curdelay, ms_timeout =>
    if o.rc = SQLITE_BUSY then
      match us_delays.get? curdelay with
      | none => Except.error Fault.table_overrun
      | some us_delay =>
        let b := qstep_retry_busy us_delay curdelay ms_timeout o
        let ev := Event.step :: Event.us_delays_read curdelay :: b.events
        match b.slept with
        | none => Except.ok (SQLITE_BUSY, ev)
        | some _ =>
          match qstep_retry_loop rest b.curdelay b.ms_timeout with
          | Except.error f => Except.error f
          | Except.ok r => Except.ok (r.1, ev ++ r.2)
    else Except.ok (o.rc, [Event.step])

/-- `qstep_retry`: the loop entered with `ms_timeout = 0, curdelay = 0`. -/
def qstep_retry (script : List StepObs) : Except Fault (Int × List Event) :=
  qstep_retry_loop script 0 0

/-- `qbegin`: `-1` when `BEGIN IMMEDIATE TRANSACTION` cannot be prepared;
otherwise runs `qstep_retry`, stores the current time in `tv_begin`, sets
`has_begin_time`, finalizes, and returns `-1` unless the loop gave
`SQLITE_DONE`. -/
def qbegin (db : Option sxi_db_t) (prepare : Nat → Int) (script : List StepObs)
    (now : timeval) : Except Fault (Int × Option sxi_db_t × List Event) :=
  let p := qprep db prepare "BEGIN IMMEDIATE TRANSACTION"
  if p.1 ≠ 0 then Except.ok (-1, db, p.2)
  else
    match qstep_retry script with
    | Except.error f => Except.error f
    | Except.ok r =>
      let db1 := db.map fun d => { d with tv_begin := now, has_begin_time := 1 }
      let ev := p.2 ++ r.2 ++ [Event.finalize]
      if r.1 ≠ SQLITE_DONE then Except.ok (-1, db1, ev) else Except.ok (0, db1, ev)

/-! ## The path-match predicate

A C string is the list of its characters before the terminating NUL. -/

/-- The scan of `file_name_match_slashes`: `idx` is `p - path` for the
character under `p`, `found` the slashes seen so far (an `unsigned int`, as
is `pattern_slashes + 1`). -/
def file_name_match_slashes_scan (pattern_slashes : Nat) : List Char → Nat → Nat → Int
  | [], _, found => if found = pattern_slashes then -1 else -2
  | c :: rest, idx, found =>
    if c = '/' then
      if (found + 1) % 2 ^ 32 = (pattern_slashes + 1) % 2 ^ 32 then i32 idx
      else file_name_match_slashes_scan pattern_slashes rest (idx + 1) ((found + 1) % 2 ^ 32)
    else file_name_match_slashes_scan pattern_slashes rest (idx + 1) found

/-- `file_name_match_slashes`: the index of the `(pattern_slashes+1)`-th
slash of `path`, `-1` when `path` has exactly `pattern_slashes` slashes,
`-2` otherwise. -/
def file_name_match_slashes (path : List Char) (pattern_slashes : Nat) : Int :=
  file_name_match_slashes_scan pattern_slashes path 0 0

/-- The C library's `strncmp` on NUL-terminated strings. -/
def strncmp : List Char → List Char → Nat → Int
  | _, _, 0 => 0
  | [], [], _ + 1 => 0
  | [], _ :: _, _ + 1 => -1
  | _ :: _, [], _ + 1 => 1
  | a :: as, b :: bs, n + 1 => if a = b then strncmp as bs n else (a.toNat : Int) - b.toNat

/-- The C library's `strcmp` on NUL-terminated strings. -/
def strcmp : List Char → List Char → Int
  | [], [] => 0
  | [], _ :: _ => -1
  | _ :: _, [] => 1
  | a :: as, b :: bs => if a = b then strcmp as bs else (a.toNat : Int) - b.toNat

/-- Arguments the engine hands to an SQL function, by `sqlite3_value_type`;
a text value whose `sqlite3_value_text` is `NULL` is `text none`. -/
inductive sqlite3_value where
  | integer (v : Int)
  | float
  | text (s : Option (List Char))
  | blob
  | null

/-- What `pmatch` leaves in the SQL context.  `buffer_overrun` stands for
the undefined behaviour of `memcpy(buffer, path, path_slash_idx)` followed by
`buffer[path_slash_idx] = 0` when `path_slash_idx` is not an index of the
`SXLIMIT_MAX_FILENAME_LEN+1` bytes of `buffer`. -/
inductive PmatchResult where
  | result_null
  | result_int (r : Int)
  | buffer_overrun
deriving DecidableEq

/-- Library calls made by `pmatch`, in program order. -/
inductive PmatchCall where
  | fnmatch (pattern string : List Char)
  | strlen (s : List Char)
  | strncmp (a b : List Char) (n : Int)
  | strcmp (a b : List Char)
  | memcpy (n : Int)
deriving DecidableEq

/-- The fallback `plen > 0 && pattern[plen-1] == '*' && !strncmp(pattern, path, plen-1)`
with the calls it makes (`&&` evaluates left to right and stops early). -/
def pmatch_prefix_fallback (pattern path : List Char) (plen : Int) : Bool × List PmatchCall :=
  if plen > 0 ∧ pattern.get? (plen - 1).toNat = some '*' then
    (strncmp pattern path (plen - 1).toNat = 0, [PmatchCall.strncmp pattern path (plen - 1)])
  else (false, [])

/-- The part of `pmatch` after its arguments have been read.  `fnmatch` is
the C library's function called with `FNM_PATHNAME` (`0` on a match);
`maxlen` is `SXLIMIT_MAX_FILENAME_LEN`. -/
def pmatch_body (fnmatch : List Char → List Char → Int) (maxlen : Nat)
    (path pattern : List Char) (pattern_slashes slash_ending : Int) :
    PmatchResult × List PmatchCall :=
  let path_slash_idx := file_name_match_slashes path (u32 pattern_slashes)
  if path_slash_idx = -2 then (PmatchResult.result_int 0, [])
  else if path_slash_idx = -1 then
    if fnmatch pattern path = 0 then
      (PmatchResult.result_int 1, [PmatchCall.fnmatch pattern path])
    else if slash_ending ≠ 0 then
      let plen := i32 pattern.length
      let f := pmatch_prefix_fallback pattern path plen
      (PmatchResult.result_int (if f.1 then 2 else 0),
        PmatchCall.fnmatch pattern path :: PmatchCall.strlen pattern :: f.2)
    else
      (PmatchResult.result_int (if strcmp pattern path = 0 then 3 else 0),
        [PmatchCall.fnmatch pattern path, PmatchCall.strcmp pattern path])
  else if path_slash_idx < 0 ∨ (maxlen : Int) < path_slash_idx then
    (PmatchResult.buffer_overrun, [PmatchCall.memcpy path_slash_idx])
  else
    let buffer := path.take path_slash_idx.toNat
    if fnmatch pattern buffer = 0 then
      (PmatchResult.result_int 4,
        [PmatchCall.memcpy path_slash_idx, PmatchCall.fnmatch pattern buffer])
    else
      let plen := i32 pattern.length
      if slash_ending ≠ 0 then
        let f := pmatch_prefix_fallback pattern path plen
        (PmatchResult.result_int (if f.1 then 5 else 0),
          PmatchCall.memcpy path_slash_idx :: PmatchCall.fnmatch pattern buffer ::
            PmatchCall.strlen pattern :: f.2)
      else if plen = path_slash_idx then
        (PmatchResult.result_int (if strcmp pattern buffer = 0 then 6 else 0),
          [PmatchCall.memcpy path_slash_idx, PmatchCall.fnmatch pattern buffer,
            PmatchCall.strlen pattern, PmatchCall.strcmp pattern buffer])
      else
        (PmatchResult.result_int 0,
          [PmatchCall.memcpy path_slash_idx, PmatchCall.fnmatch pattern buffer,
            PmatchCall.strlen pattern])

/-- `pmatch`: a `NULL` result unless it is called with four arguments of
types text, text, integer, integer whose texts can be read; the integers
are taken with `sqlite3_value_int`. -/
def pmatch (fnmatch : List Char → List Char → Int) (maxlen : Nat)
    (argv : List sqlite3_value) : PmatchResult × List PmatchCall :=
  match argv with
  | [sqlite3_value.text path, sqlite3_value.text pattern, sqlite3_value.integer n,
      sqlite3_value.integer e] =>
    match path, pattern with
    | some path, some pattern => pmatch_body fnmatch maxlen path pattern (i32 n) (i32 e)
    | _, _ => (PmatchResult.result_null, [])
  | _ => (PmatchResult.result_null, [])

/-- The tails of `s` that a `*` can leave to the rest of the pattern: it
consumes any run of characters other than `/`. -/
def star_tails : List Char → List (List Char)
  | [] => [[]]
  | c :: cs => (c :: cs) :: (if c = '/' then [] else star_tails cs)

/-- Reference matcher standing for the C library's `fnmatch` with
`FNM_PATHNAME`, for patterns made of ordinary characters, `?` and `*` (no
bracket expression, no backslash).  The properties of `pmatch` are proved
for every matcher; this one evaluates them at concrete paths. -/
def glob_pathname : List Char → List Char → Bool
  | [], s => s.isEmpty
  | '*' :: ps, s => (star_tails s).any (glob_pathname ps)
  | '?' :: ps, c :: cs => c != '/' && glob_pathname ps cs
  | '?' :: _, [] => false
  | p :: ps, c :: cs => p == c && glob_pathname ps cs
  | _ :: _, [] => false

/-- The `int` returned by the reference matcher: `0` on a match, else
`FNM_NOMATCH`. -/
def fnmatch_pathname (pattern string : List Char) : Int :=
  if glob_pathname pattern string then 0 else 1

/-! ## Checkpoints

`db_max_passive_wal_pages`, `db_max_restart_wal_pages` and `db_idle_restart`
are globals defined outside this file; they are parameters here.  The
answer of the engine to `sqlite3_wal_checkpoint_v2` (return code, frames in
the log, frames checkpointed) only feeds the log messages. -/

/-- `qcheckpoint_run`: nothing on a `NULL` connection; otherwise one
`sqlite3_wal_checkpoint_v2` of the given kind, after which `wal_pages` is
set to 0. -/
def qcheckpoint_run (db : Option sxi_db_t) (kind : Int) (_rc _log _ckpt : Int) :
    Option sxi_db_t × List Event :=
  match db with
  | none => (none, [])
  | some d => (some { d with wal_pages := 0 }, [Event.wal_checkpoint kind])

/-- `qcheckpoint`: a restart checkpoint when `wal_pages` has reached
`db_max_restart_wal_pages`, a passive one otherwise. -/
def qcheckpoint (db_max_restart_wal_pages : Int) (db : Option sxi_db_t) (rc log ckpt : Int) :
    Option sxi_db_t × List Event :=
  match db with
  | none => (none, [])
  | some d =>
    if d.wal_pages ≥ db_max_restart_wal_pages then
      qcheckpoint_run (some d) SQLITE_CHECKPOINT_RESTART rc log ckpt
    else
      qcheckpoint_run (some d) SQLITE_CHECKPOINT_PASSIVE rc log ckpt

/-- `qcheckpoint_idle`: `changes` is what `sqlite3_total_changes` returns,
`now` the time read when the counter has moved.  `timediff` (utils.c) and
the C `double` it returns are parameters, as in `qelapsed`. -/
def qcheckpoint_idle {R : Type} [LinearOrder R] (timediff : timeval → timeval → R)
    (db_idle_restart : R) (db : Option sxi_db_t) (changes : Int) (now : timeval)
    (rc log ckpt : Int) : Option sxi_db_t × List Event :=
  match db with
  | none => (none, [])
  | some d =>
    if changes ≠ d.last_total_changes then
      if timediff d.tv_last now ≥ db_idle_restart then
        let r := qcheckpoint_run (some d) SQLITE_CHECKPOINT_PASSIVE rc log ckpt
        (r.1.map fun d1 => { d1 with tv_last := now, last_total_changes := changes },
          Event.total_changes :: r.2)
      else (some d, [Event.total_changes])
    else (some d, [Event.total_changes])

/-- `qwal_hook`: on a connection, restarts the idle clock if no page was
pending and records the frame count; then checkpoints when the count has
reached `db_max_passive_wal_pages`.  Returns `SQLITE_OK`. -/
def qwal_hook (db_max_passive_wal_pages db_max_restart_wal_pages : Int)
    (db : Option sxi_db_t) (pages : Int) (now : timeval) (rc log ckpt : Int) :
    Int × Option sxi_db_t × List Event :=
  let db1 := db.map fun d =>
    { d with tv_last := if d.wal_pages = 0 then now else d.tv_last, wal_pages := pages }
  if pages ≥ db_max_passive_wal_pages then
    let r := qcheckpoint db_max_restart_wal_pages db1 rc log ckpt
    (SQLITE_OK, r.1, r.2)
  else (SQLITE_OK, db1, [])

/-- The kinds of the checkpoints a run has made, in order. -/
def checkpoints : List Event → List Int
  | [] => []
  | Event.wal_checkpoint kind :: ev => kind :: checkpoints ev
  | _ :: ev => checkpoints ev

/-! ## Log classification -/

/-- The priorities `SX_LOG_*` used by `qlog`. -/
inductive LogPrio where
  | SX_LOG_ALERT
  | SX_LOG_CRIT
  | SX_LOG_WARNING
  | SX_LOG_NOTICE
  | SX_LOG_INFO
  | SX_LOG_DEBUG
deriving DecidableEq

/-- `qlog`: `none` when it returns without logging, otherwise the priority
passed to `sxi_log_msg` and the code printed in the message.  On an `int`,
`errcode & 0xff` is `errcode % 256`. -/
def qlog (errcode : Int) : Option (LogPrio × Int) :=
  let c := errcode % 256
  if c = SQLITE_OK ∨ c = SQLITE_ROW ∨ c = SQLITE_DONE ∨ c = SQLITE_CONSTRAINT then none
  else if c = SQLITE_SCHEMA then some (LogPrio.SX_LOG_DEBUG, errcode)
  else if c = SQLITE_BUSY then some (LogPrio.SX_LOG_INFO, errcode)
  else if c = SQLITE_NOTICE then some (LogPrio.SX_LOG_NOTICE, errcode)
  else if c = SQLITE_IOERR ∨ c = SQLITE_CANTOPEN ∨ c = SQLITE_NOTADB then
    some (LogPrio.SX_LOG_CRIT, errcode)
  else if c = SQLITE_CORRUPT ∨ c = SQLITE_FULL then some (LogPrio.SX_LOG_ALERT, errcode)
  else some (LogPrio.SX_LOG_WARNING, errcode)

/-- The indices at which a run has read the table `us_delays`, in order. -/
def table_reads : List Event → List Nat
  | [] => []
  | Event.us_delays_read i :: ev => i :: table_reads ev
  | _ :: ev => table_reads ev

/-- The durations a run has passed to `usleep`, in order. -/
def usleeps : List Event → List Nat
  | [] => []
  | Event.usleep us :: ev => us :: usleeps ev
  | _ :: ev => usleeps ev

/-! ## Engines and connections used at concrete inputs -/

/-- An engine that answers `SQLITE_ERROR` to every preparation. -/
def prepare_fails : Nat → Int := fun _ => SQLITE_ERROR

/-- An engine that prepares every statement at the first attempt. -/
def prepare_ok : Nat → Int := fun _ => SQLITE_OK

/-- A connection outside a transaction. -/
def idle_db : sxi_db_t :=
  { handle := 1, wal_pages := 0, tv_last := ⟨0, 0⟩, last_total_changes := 0,
    tv_begin := ⟨0, 0⟩, has_begin_time := 0 }

/-- An engine that keeps the write lock away from `BEGIN IMMEDIATE`: the
step is busy, the busy timeout read back is 1000 ms, and 1000 ms have
elapsed when the loop looks at the clock. -/
def lock_not_acquired : List StepObs :=
  [{ rc := SQLITE_BUSY, pragma_prepare := prepare_ok, pragma_step := SQLITE_ROW,
     pragma_value := 1000, ms_dt := 1000 }]

/-- A busy pass at the start of the loop with a busy timeout of 4294968 ms
read back from the engine and no time elapsed: `(T - dt) * 1000` is
4294968000, which wraps to 704 in an `unsigned int`. -/
def timeout_wraps : StepObs :=
  { rc := SQLITE_BUSY, pragma_prepare := prepare_ok, pragma_step := SQLITE_ROW,
    pragma_value := 4294968, ms_dt := 0 }

/-- A busy pass with a busy timeout of 1000 ms and no time elapsed. -/
def busy_pass : StepObs :=
  { rc := SQLITE_BUSY, pragma_prepare := prepare_ok, pragma_step := SQLITE_ROW,
    pragma_value := 1000, ms_dt := 0 }

/-- The pass on which the write lock is acquired. -/
def done_pass : StepObs :=
  { rc := SQLITE_DONE, pragma_prepare := prepare_ok, pragma_step := SQLITE_ROW,
    pragma_value := 1000, ms_dt := 0 }

/-- An engine that is busy `k` times in a row and then grants the lock. -/
def busy_then_done (k : Nat) : List StepObs := List.replicate k busy_pass ++ [done_pass]

end Sxdbi

/-! # Properties -/

namespace Sxdbi

/-! ## Transactions -/

theorem qdone_some (d : sxi_db_t) : qdone (some d) = some { d with has_begin_time := 0 } := rfl

theorem qelapsed_qdone {R : Type} [Zero R] (timediff : timeval → timeval → R) (now : timeval)
    (db : Option sxi_db_t) : qelapsed timediff now (qdone db) = 0 := by
  cases db <;> simp [qdone, qelapsed]

/-- Once `COMMIT` has been prepared, `qcommit_real` clears the flag whatever
the step returns. -/
theorem qcommit_real_prepared (d : sxi_db_t) (prepare : Nat → Int) (step_rc : Int)
    (hp : (qprep (some d) prepare "COMMIT").1 = 0) :
    (qcommit_real (some d) prepare step_rc).2.1 = some { d with has_begin_time := 0 } := by
  simp [qcommit_real, hp, qdone]

/-- When `COMMIT` cannot be prepared, `qcommit_real` returns `-1` and hands
the connection back as it was. -/
theorem qcommit_real_not_prepared (db : Option sxi_db_t) (prepare : Nat → Int) (step_rc : Int)
    (hp : (qprep db prepare "COMMIT").1 ≠ 0) :
    (qcommit_real db prepare step_rc).1 = -1 ∧ (qcommit_real db prepare step_rc).2.1 = db := by
  simp [qcommit_real, hp]

/-- C1, evaluated on the code: on a connection inside a transaction, with an
engine that fails to prepare `COMMIT`, `qcommit_real` returns `-1` after the
single preparation attempt and leaves `has_begin_time` at 1, so that
`qelapsed` afterwards is the time since the begin and not the constant 0;
this is also what happens after a successful `qbegin`. -/
theorem qcommit_real_prepare_failure_keeps_flag (d : sxi_db_t) (step_rc : Int) (now : timeval) :
    qcommit_real (some { d with has_begin_time := 1 }) prepare_fails step_rc
        = (-1, some { d with has_begin_time := 1 }, [Event.prepare "COMMIT"])
      ∧ (∀ (R : Type) (_ : Zero R) (timediff : timeval → timeval → R) (t : timeval),
          qelapsed timediff t
            (qcommit_real (some { d with has_begin_time := 1 }) prepare_fails step_rc).2.1
            = timediff d.tv_begin t)
      ∧ (∃ d1 ev, qbegin (some d) prepare_ok [⟨SQLITE_DONE, prepare_ok, 0, 0, 0⟩] now
            = Except.ok (0, some d1, ev)
          ∧ (qcommit_real (some d1) prepare_fails step_rc).1 = -1
          ∧ (qcommit_real (some d1) prepare_fails step_rc).2.1 = some d1
          ∧ d1.has_begin_time = 1) := by
  refine ⟨?_, ?_, ?_⟩
  · simp [qcommit_real, qprep, qprep_db, qprep_db_loop, prepare_fails, SQLITE_ERROR,
      SQLITE_BUSY]
  · intro R _ timediff t
    simp [qcommit_real, qprep, qprep_db, qprep_db_loop, prepare_fails, SQLITE_ERROR,
      SQLITE_BUSY, qelapsed]
  · refine ⟨{ d with tv_begin := now, has_begin_time := 1 }, _, rfl, ?_, ?_, rfl⟩ <;>
      simp [qcommit_real, qprep, qprep_db, qprep_db_loop, prepare_fails, SQLITE_ERROR,
        SQLITE_BUSY]

/-- Whenever `BEGIN IMMEDIATE` has been prepared and the retry loop has
returned, `qbegin` has set `has_begin_time`, whatever the loop returned. -/
theorem qbegin_sets_flag_after_loop (d : sxi_db_t) (prepare : Nat → Int)
    (script : List StepObs) (now : timeval) (r : Int × List Event)
    (hp : (qprep (some d) prepare "BEGIN IMMEDIATE TRANSACTION").1 = 0)
    (hr : qstep_retry script = Except.ok r) :
    ∃ ret ev, qbegin (some d) prepare script now
        = Except.ok (ret, some { d with tv_begin := now, has_begin_time := 1 }, ev)
      ∧ (ret = 0 ↔ r.1 = SQLITE_DONE) ∧ (ret = -1 ↔ r.1 ≠ SQLITE_DONE) := by
  by_cases h : r.1 = SQLITE_DONE
  · exact ⟨0, (qprep (some d) prepare "BEGIN IMMEDIATE TRANSACTION").2 ++ r.2 ++ [Event.finalize],
      by simp [qbegin, hp, hr, h], by simp [h], by simp [h]⟩
  · exact ⟨-1, (qprep (some d) prepare "BEGIN IMMEDIATE TRANSACTION").2 ++ r.2 ++ [Event.finalize],
      by simp [qbegin, hp, hr, h], by simp [h], by simp [h]⟩

/-- When `BEGIN IMMEDIATE` cannot be prepared, `qbegin` returns `-1` and
hands the connection back as it was. -/
theorem qbegin_not_prepared (db : Option sxi_db_t) (prepare : Nat → Int)
    (script : List StepObs) (now : timeval)
    (hp : (qprep db prepare "BEGIN IMMEDIATE TRANSACTION").1 ≠ 0) :
    ∃ ev, qbegin db prepare script now = Except.ok (-1, db, ev) := by
  exact ⟨(qprep db prepare "BEGIN IMMEDIATE TRANSACTION").2, by simp [qbegin, hp]⟩

/-- C2, evaluated on the code: on a connection whose `has_begin_time` is 0,
with an engine that prepares `BEGIN IMMEDIATE` but keeps it busy until the
busy timeout has elapsed, `qbegin` returns `-1` and nevertheless leaves
`has_begin_time` at 1 and `tv_begin` at the current time, so that `qelapsed`
afterwards is the time since the failed begin and not the constant 0. -/
theorem qbegin_failure_sets_flag (d : sxi_db_t) (now : timeval) :
    ∃ ev, qbegin (some { d with has_begin_time := 0 }) prepare_ok lock_not_acquired now
        = Except.ok (-1, some { d with tv_begin := now, has_begin_time := 1 }, ev)
      ∧ ∀ (R : Type) (_ : Zero R) (timediff : timeval → timeval → R) (t : timeval),
          qelapsed timediff t (some { d with tv_begin := now, has_begin_time := 1 })
            = timediff now t := by
  refine ⟨_, rfl, ?_⟩
  intro R _ timediff t
  simp [qelapsed]

/-- C3: on every connection and for every answer of the engine to the
preparation and to the step of `ROLLBACK`, `qrollback_real` returns the
connection with `has_begin_time` at 0 and nothing else changed, after which
`qelapsed` is 0; on a `NULL` connection it makes no call on the engine and
there is no connection to change. -/
theorem qrollback_real_always_idle (d : sxi_db_t) (prepare : Nat → Int) (step_rc : Int) :
    (qrollback_real (some d) prepare step_rc).1 = some { d with has_begin_time := 0 }
      ∧ (∀ (R : Type) (_ : Zero R) (timediff : timeval → timeval → R) (t : timeval),
          qelapsed timediff t (qrollback_real (some d) prepare step_rc).1 = 0)
      ∧ qrollback_real none prepare step_rc = (none, []) := by
  refine ⟨rfl, ?_, rfl⟩
  intro R _ timediff t
  simp [qrollback_real, qdone, qelapsed]

/-! ## Statement execution -/

/-- C8: `qstep_expect` returns 0 exactly when the step outcome is the
expected one and `-1` for every other outcome; a return of `-1` comes with a
reset of the statement; a return of 0 on a row comes with no reset.  A row
where `SQLITE_DONE` was expected gives `-1` and a reset, `SQLITE_DONE` where
a row was expected gives `-1`. -/
theorem qstep_expect_contract (step_rc expect : Int) :
    ((qstep_expect step_rc expect).1 = 0 ↔ step_rc = expect)
      ∧ ((qstep_expect step_rc expect).1 = -1 ↔ step_rc ≠ expect)
      ∧ ((qstep_expect step_rc expect).1 = -1 → Event.reset ∈ (qstep_expect step_rc expect).2)
      ∧ ((qstep_expect step_rc expect).1 = 0 → step_rc = SQLITE_ROW →
          Event.reset ∉ (qstep_expect step_rc expect).2)
      ∧ (qstep_expect SQLITE_ROW SQLITE_DONE).1 = -1
      ∧ Event.reset ∈ (qstep_expect SQLITE_ROW SQLITE_DONE).2
      ∧ (qstep_expect SQLITE_DONE SQLITE_ROW).1 = -1 := by
  refine ⟨?_, ?_, ?_, ?_, by decide, by decide, by decide⟩
  · unfold qstep_expect qstep
    by_cases h : step_rc = expect <;> simp [h] <;> split_ifs <;> simp
  · unfold qstep_expect qstep
    by_cases h : step_rc = expect <;> simp [h] <;> split_ifs <;> simp
  · unfold qstep_expect qstep
    by_cases h : step_rc = expect <;> simp [h]
    by_cases h1 : step_rc = SQLITE_DONE
    · simp [h1]
      decide
    · have hne : SQLITE_ROW ≠ SQLITE_DONE := by decide
      by_cases h2 : step_rc = SQLITE_ROW <;> simp [h1, h2, hne]
  · intro h0 hrow
    subst hrow
    unfold qstep_expect qstep at *
    by_cases h : SQLITE_ROW = expect
    · simp [h]
    · simp [h] at h0
      split_ifs at h0 <;> simp at h0

/-! ## The path-match predicate -/

theorem u32_natCast (n : Nat) (hn : n < 2 ^ 32) : u32 (n : Int) = n := by
  unfold u32
  omega

theorem i32_of_range (n : Int) (h0 : -2 ^ 31 ≤ n) (h1 : n < 2 ^ 31) : i32 n = n := by
  unfold i32
  omega

/-- What the scan of `file_name_match_slashes` returns, by the number of
slashes still to come: `-2` when they do not reach `n`, `-1` when they
reach exactly `n`, and otherwise the index of the slash that brings the
count to `n + 1`. -/
theorem file_name_match_slashes_scan_spec (n : Nat) (hn : n + 1 < 2 ^ 32) :
    ∀ (path : List Char) (idx found : Nat), found ≤ n →
      (found + path.count '/' < n → file_name_match_slashes_scan n path idx found = -2)
      ∧ (found + path.count '/' = n → file_name_match_slashes_scan n path idx found = -1)
      ∧ (n < found + path.count '/' →
          ∃ i, path.get? i = some '/' ∧ found + (path.take i).count '/' = n
            ∧ file_name_match_slashes_scan n path idx found = i32 ((idx + i : Nat) : Int)) := by
  intro path
  induction path with
  | nil =>
    intro idx found hf
    refine ⟨?_, ?_, ?_⟩
    · intro h
      have : found ≠ n := by simp at h; omega
      simp [file_name_match_slashes_scan, this]
    · intro h
      have : found = n := by simpa using h
      simp [file_name_match_slashes_scan, this]
    · intro h
      simp at h
      omega
  | cons c rest ih =>
    intro idx found hf
    by_cases hc : c = '/'
    · subst hc
      have hcount : (('/' : Char) :: rest).count '/' = rest.count '/' + 1 := by simp
      have hw1 : (found + 1) % 4294967296 = found + 1 := by omega
      have hw2 : (n + 1) % 4294967296 = n + 1 := by omega
      by_cases hfn : found = n
      · subst hfn
        refine ⟨fun h => by omega, fun h => by omega, fun _ => ⟨0, ?_⟩⟩
        simp [file_name_match_slashes_scan]
      · have hlt : found + 1 ≤ n := by omega
        have hne : found + 1 ≠ n + 1 := by omega
        have hstep : file_name_match_slashes_scan n ('/' :: rest) idx found
            = file_name_match_slashes_scan n rest (idx + 1) (found + 1) := by
          simp [file_name_match_slashes_scan, hw1, hw2, hfn]
        obtain ⟨h1, h2, h3⟩ := ih (idx + 1) (found + 1) hlt
        rw [hstep, hcount]
        refine ⟨fun h => h1 (by omega), fun h => h2 (by omega), fun h => ?_⟩
        obtain ⟨i, hi, hci, hres⟩ := h3 (by omega)
        refine ⟨i + 1, by simpa using hi, ?_, ?_⟩
        · simp only [List.take_succ_cons, List.count_cons_self]
          omega
        · rw [hres]
          congr 2
          omega
    · have hcount : (c :: rest).count '/' = rest.count '/' := by
        simp [List.count_cons, hc]
      have hstep : file_name_match_slashes_scan n (c :: rest) idx found
          = file_name_match_slashes_scan n rest (idx + 1) found := by
        simp [file_name_match_slashes_scan, hc]
      obtain ⟨h1, h2, h3⟩ := ih (idx + 1) found hf
      rw [hstep, hcount]
      refine ⟨h1, h2, fun h => ?_⟩
      obtain ⟨i, hi, hci, hres⟩ := h3 h
      refine ⟨i + 1, by simpa using hi, ?_, ?_⟩
      · simpa [List.count_cons, hc] using hci
      · rw [hres]
        congr 2
        omega

theorem strcmp_eq_zero (a b : List Char) : strcmp a b = 0 ↔ a = b := by
  induction a generalizing b with
  | nil => cases b <;> simp [strcmp]
  | cons x xs ih =>
    cases b with
    | nil => simp [strcmp]
    | cons y ys =>
      by_cases h : x = y
      · simp [strcmp, h, ih]
      · have : (x.toNat : Int) - y.toNat ≠ 0 := by
          intro h0
          apply h
          apply Char.ext
          apply UInt32.ext
          have : x.toNat = y.toNat := by omega
          exact this
        simp [strcmp, h, this]

theorem strncmp_eq_zero (a b : List Char) (n : Nat) :
    strncmp a b n = 0 ↔ a.take n = b.take n := by
  induction n generalizing a b with
  | zero => simp [strncmp]
  | succ k ih =>
    cases a with
    | nil => cases b <;> simp [strncmp]
    | cons x xs =>
      cases b with
      | nil => simp [strncmp]
      | cons y ys =>
        by_cases h : x = y
        · simp [strncmp, h, ih]
        · have : (x.toNat : Int) - y.toNat ≠ 0 := by
            intro h0
            apply h
            apply Char.ext
            apply UInt32.ext
            have : x.toNat = y.toNat := by omega
            exact this
          simp [strncmp, h, this]

/-- The prefix fallback of `pmatch` succeeds exactly when the pattern is
not empty, ends in `*`, and is a prefix of the path once that last
character is removed. -/
theorem pmatch_prefix_fallback_iff (pattern path : List Char) :
    (pmatch_prefix_fallback pattern path (pattern.length : Int)).1 = true
      ↔ (pattern ≠ [] ∧ pattern.getLast? = some '*' ∧ pattern.dropLast <+: path) := by
  unfold pmatch_prefix_fallback
  have hto : ((pattern.length : Int) - 1).toNat = pattern.length - 1 := by omega
  rw [hto, List.get?_eq_getElem?, ← List.getLast?_eq_getElem?]
  by_cases hne : pattern = []
  · subst hne
    simp
  · have hpos : (0 : Int) < (pattern.length : Int) := by
      have := List.length_pos.mpr hne
      omega
    by_cases hl : pattern.getLast? = some '*'
    · have hpre : pattern.take (pattern.length - 1) = path.take (pattern.length - 1)
          ↔ pattern.dropLast <+: path := by
        rw [List.prefix_iff_eq_take, List.dropLast_eq_take, List.length_take]
        simp
      simp [hne, hl, hpos, strncmp_eq_zero, hpre]
    · simp [hne, hl, hpos]

/-- A path with more than `n` slashes has an `(n+1)`-th slash, and
`file_name_match_slashes` returns its index. -/
theorem file_name_match_slashes_more (path : List Char) (n : Nat) (hn : n < 2 ^ 31)
    (hmore : n < path.count '/') :
    ∃ i, path.get? i = some '/' ∧ (path.take i).count '/' = n
      ∧ file_name_match_slashes path n = i32 (i : Int) := by
  obtain ⟨i, h1, h2, h3⟩ :=
    (file_name_match_slashes_scan_spec n (by omega) path 0 0 (Nat.zero_le _)).2.2 (by omega)
  exact ⟨i, h1, by omega, by simpa [file_name_match_slashes] using h3⟩

/-- C6: when the path has fewer slashes than `pattern_slash_count`,
`file_name_match_slashes` returns `-2` and `pmatch` gives the integer 0
without any library call: no glob, no comparison, no copy; this for every
pattern, every flag and every matcher. -/
theorem pmatch_fewer_slashes (fnmatch : List Char → List Char → Int) (maxlen : Nat)
    (path pattern : List Char) (n : Nat) (e : Int) (hn : n < 2 ^ 31)
    (hfew : path.count '/' < n) :
    file_name_match_slashes path (u32 (n : Int)) = -2
      ∧ pmatch fnmatch maxlen [sqlite3_value.text (some path), sqlite3_value.text (some pattern),
          sqlite3_value.integer n, sqlite3_value.integer e] = (PmatchResult.result_int 0, []) := by
  have hi : i32 (n : Int) = n := i32_of_range _ (by omega) (by omega)
  have hu : u32 (n : Int) = n := u32_natCast n (by omega)
  have hidx : file_name_match_slashes path n = -2 :=
    (file_name_match_slashes_scan_spec n (by omega) path 0 0 (Nat.zero_le _)).1 (by omega)
  refine ⟨by rw [hu, hidx], ?_⟩
  simp [pmatch, pmatch_body, hi, hu, hidx]

theorem pmatch_fewer_slashes_witness :
    file_name_match_slashes "onlyfile".toList (u32 ((1 : Nat) : Int)) = -2
      ∧ pmatch fnmatch_pathname 1024 [sqlite3_value.text (some "onlyfile".toList),
          sqlite3_value.text (some "a/b".toList), sqlite3_value.integer (1 : Nat),
          sqlite3_value.integer 0] = (PmatchResult.result_int 0, []) :=
  pmatch_fewer_slashes fnmatch_pathname 1024 "onlyfile".toList "a/b".toList 1 0 (by decide)
    (by decide)

/-- C5: when the path has exactly `pattern_slash_count` slashes, `pmatch`
gives 1 if the glob matches the whole path; failing that, with a non-zero
flag, 2 if the pattern is not empty, ends in `*` and is a prefix of the
path once the `*` is removed, else 0; with a zero flag, 3 if the pattern is
the path, else 0. -/
theorem pmatch_same_slashes (fnmatch : List Char → List Char → Int) (maxlen : Nat)
    (path pattern : List Char) (n : Nat) (e : Int) (hn : n < 2 ^ 31)
    (he0 : -2 ^ 31 ≤ e) (he1 : e < 2 ^ 31) (hplen : pattern.length < 2 ^ 31)
    (hsame : path.count '/' = n) :
    (pmatch fnmatch maxlen [sqlite3_value.text (some path), sqlite3_value.text (some pattern),
        sqlite3_value.integer n, sqlite3_value.integer e]).1
      = PmatchResult.result_int
          (if fnmatch pattern path = 0 then 1
           else if e ≠ 0 then
             (if pattern ≠ [] ∧ pattern.getLast? = some '*' ∧ pattern.dropLast <+: path
              then 2 else 0)
           else if pattern = path then 3 else 0) := by
  have hi : i32 (n : Int) = n := i32_of_range _ (by omega) (by omega)
  have hu : u32 (n : Int) = n := u32_natCast n (by omega)
  have hef : i32 e = e := i32_of_range _ he0 he1
  have hpl : i32 (pattern.length : Int) = pattern.length := i32_of_range _ (by omega) (by omega)
  have hidx : file_name_match_slashes path n = -1 :=
    (file_name_match_slashes_scan_spec n (by omega) path 0 0 (Nat.zero_le _)).2.1 (by omega)
  simp only [pmatch, pmatch_body, hi, hu, hef, hpl, hidx]
  by_cases hf : fnmatch pattern path = 0
  · simp [hf]
  · by_cases hz : e = 0
    · simp [hf, hz, strcmp_eq_zero]
    · simp only [hf, hz, pmatch_prefix_fallback_iff]
      simp [hz]

theorem pmatch_same_slashes_witness :
    (pmatch fnmatch_pathname 1024 [sqlite3_value.text (some "dir1/file".toList),
        sqlite3_value.text (some "dir2/*".toList), sqlite3_value.integer (1 : Nat),
        sqlite3_value.integer 0]).1 = PmatchResult.result_int 0
      ∧ (pmatch fnmatch_pathname 1024 [sqlite3_value.text (some "dir1/file".toList),
        sqlite3_value.text (some "dir2/*".toList), sqlite3_value.integer (1 : Nat),
        sqlite3_value.integer 1]).1 = PmatchResult.result_int 0 := by
  constructor
  · rw [pmatch_same_slashes fnmatch_pathname 1024 "dir1/file".toList "dir2/*".toList 1 0
      (by decide) (by decide) (by decide) (by decide) (by decide)]
    decide
  · rw [pmatch_same_slashes fnmatch_pathname 1024 "dir1/file".toList "dir2/*".toList 1 1
      (by decide) (by decide) (by decide) (by decide) (by decide)]
    decide

/-- C4: a path with more than `pattern_slash_count` slashes has an
`(n+1)`-th slash, at some index `i`; when the prefix before it, `take i`,
fits the maximum file-name length, `pmatch` gives 4 if the glob matches the
prefix; failing that, with a non-zero flag, 5 if the pattern is not empty,
ends in `*` and is a prefix of the path once that last character is
removed, else 0; with a zero flag, 6 if the pattern is the prefix, else 0. -/
theorem pmatch_more_slashes (fnmatch : List Char → List Char → Int) (maxlen : Nat)
    (path pattern : List Char) (n : Nat) (e : Int) (hn : n < 2 ^ 31)
    (he0 : -2 ^ 31 ≤ e) (he1 : e < 2 ^ 31) (hmax : maxlen < 2 ^ 31)
    (hplen : pattern.length < 2 ^ 31) (hmore : n < path.count '/') :
    ∃ i, path.get? i = some '/' ∧ (path.take i).count '/' = n
      ∧ (i ≤ maxlen →
          (pmatch fnmatch maxlen [sqlite3_value.text (some path),
              sqlite3_value.text (some pattern), sqlite3_value.integer n,
              sqlite3_value.integer e]).1
            = PmatchResult.result_int
                (if fnmatch pattern (path.take i) = 0 then 4
                 else if e ≠ 0 then
                   (if pattern ≠ [] ∧ pattern.getLast? = some '*' ∧ pattern.dropLast <+: path
                    then 5 else 0)
                 else if pattern = path.take i then 6 else 0)) := by
  have hn0 : -2 ^ 31 ≤ (n : Int) := by omega
  have hn1 : (n : Int) < 2 ^ 31 := by omega
  have hn2 : n < 2 ^ 32 := by omega
  have hp0 : -2 ^ 31 ≤ (pattern.length : Int) := by omega
  have hp1 : (pattern.length : Int) < 2 ^ 31 := by omega
  have hrange : ∀ j : Nat, j ≤ maxlen →
      -2 ^ 31 ≤ (j : Int) ∧ (j : Int) < 2 ^ 31 ∧ ¬ ((j : Int) = -2) ∧ ¬ ((j : Int) = -1)
        ∧ ¬ ((j : Int) < 0 ∨ (maxlen : Int) < (j : Int)) := by
    intro j hj
    omega
  obtain ⟨i, hget, hcount, hidx⟩ := file_name_match_slashes_more path n hn hmore
  refine ⟨i, hget, hcount, fun hle => ?_⟩
  obtain ⟨hi0, hi1, h2, h1, h3⟩ := hrange i hle
  have hi : i32 (n : Int) = n := i32_of_range _ hn0 hn1
  have hu : u32 (n : Int) = n := u32_natCast n hn2
  have hef : i32 e = e := i32_of_range _ he0 he1
  have hpl : i32 (pattern.length : Int) = pattern.length := i32_of_range _ hp0 hp1
  have hii : i32 (i : Int) = i := i32_of_range _ hi0 hi1
  rw [hii] at hidx
  have hilt : i < path.length := by
    rcases Nat.lt_or_ge i path.length with h | h
    · exact h
    · rw [List.get?_eq_none.mpr h] at hget
      exact absurd hget (by simp)
  have hlen : (path.take i).length = i := by
    rw [List.length_take]
    exact Nat.min_eq_left (Nat.le_of_lt hilt)
  simp only [pmatch, pmatch_body, hi, hu, hef, hpl, hidx, h1, h2, h3, if_false, Int.toNat_ofNat]
  by_cases hf : fnmatch pattern (path.take i) = 0
  · simp [hf]
  · by_cases hz : e = 0
    · by_cases hpi : pattern.length = i
      · simp [hf, hz, hpi, strcmp_eq_zero]
      · have hne : pattern ≠ path.take i := by
          intro h
          apply hpi
          rw [h, hlen]
        simp [hf, hz, hpi, hne]
    · simp only [hf, hz, pmatch_prefix_fallback_iff]
      simp [hz]

theorem pmatch_more_slashes_witness :
    (∃ i, "a/b/c.txt".toList.get? i = some '/' ∧ ("a/b/c.txt".toList.take i).count '/' = 1
      ∧ (i ≤ 1024 →
          (pmatch fnmatch_pathname 1024 [sqlite3_value.text (some "a/b/c.txt".toList),
              sqlite3_value.text (some "a/b*".toList), sqlite3_value.integer (1 : Nat),
              sqlite3_value.integer 0]).1
            = PmatchResult.result_int
                (if fnmatch_pathname "a/b*".toList ("a/b/c.txt".toList.take i) = 0 then 4
                 else if (0 : Int) ≠ 0 then
                   (if "a/b*".toList ≠ [] ∧ "a/b*".toList.getLast? = some '*'
                      ∧ "a/b*".toList.dropLast <+: "a/b/c.txt".toList
                    then 5 else 0)
                 else if "a/b*".toList = "a/b/c.txt".toList.take i then 6 else 0)))
      ∧ "a/b/c.txt".toList.take 3 = "a/b".toList
      ∧ fnmatch_pathname "a/b*".toList "a/b".toList = 0
      ∧ (pmatch fnmatch_pathname 1024 [sqlite3_value.text (some "a/b/c.txt".toList),
              sqlite3_value.text (some "a/b*".toList), sqlite3_value.integer (1 : Nat),
              sqlite3_value.integer 0]).1 = PmatchResult.result_int 4 :=
  ⟨pmatch_more_slashes fnmatch_pathname 1024 "a/b/c.txt".toList "a/b*".toList 1 0 (by decide)
      (by decide) (by decide) (by decide) (by decide) (by decide),
    by decide, by decide, by decide⟩

/-- The scan of `file_name_match_slashes` over a run of `k` characters `a`
followed by a slash, looking for the first slash. -/
theorem file_name_match_slashes_scan_replicate (k : Nat) (rest : List Char) (idx : Nat) :
    file_name_match_slashes_scan 0 (List.replicate k 'a' ++ '/' :: rest) idx 0
      = i32 ((idx + k : Nat) : Int) := by
  induction k generalizing idx with
  | zero => simp [file_name_match_slashes_scan]
  | succ k ih =>
    have hstep : file_name_match_slashes_scan 0 (List.replicate (k + 1) 'a' ++ '/' :: rest) idx 0
        = file_name_match_slashes_scan 0 (List.replicate k 'a' ++ '/' :: rest) (idx + 1) 0 := by
      simp [List.replicate_succ, file_name_match_slashes_scan]
    rw [hstep, ih]
    congr 2
    omega

/-- C7, evaluated on the code: whatever the maximum file-name length, take
the path made of one character more than that maximum followed by `/x`, and
the slash count 0.  The prefix before the first slash does not fit the
buffer; `pmatch` still calls `memcpy` with that length and writes past the
buffer.  It makes no test of the length and has no error result. -/
theorem pmatch_long_prefix_overruns_buffer (fnmatch : List Char → List Char → Int)
    (maxlen : Nat) (pattern : List Char) (e : Int) (hmax : maxlen + 1 < 2 ^ 31) :
    pmatch fnmatch maxlen [sqlite3_value.text (some (List.replicate (maxlen + 1) 'a' ++ ['/', 'x'])),
        sqlite3_value.text (some pattern), sqlite3_value.integer 0, sqlite3_value.integer e]
      = (PmatchResult.buffer_overrun, [PmatchCall.memcpy ((maxlen + 1 : Nat) : Int)]) := by
  have hidx : file_name_match_slashes (List.replicate (maxlen + 1) 'a' ++ ['/', 'x']) 0
      = ((maxlen + 1 : Nat) : Int) := by
    unfold file_name_match_slashes
    rw [file_name_match_slashes_scan_replicate, i32_of_range _ (by omega) (by omega)]
    simp
  have hi : i32 0 = 0 := by decide
  have hu : u32 0 = 0 := by decide
  have h2 : ¬ (((maxlen + 1 : Nat) : Int) = -2) := by omega
  have h1 : ¬ (((maxlen + 1 : Nat) : Int) = -1) := by omega
  have h3 : (((maxlen + 1 : Nat) : Int) < 0 ∨ (maxlen : Int) < ((maxlen + 1 : Nat) : Int)) := by
    omega
  simp only [pmatch, pmatch_body, hi, hu, hidx, h1, h2, h3, if_false, if_true]

theorem pmatch_long_prefix_overruns_buffer_witness :
    pmatch fnmatch_pathname 1024
        [sqlite3_value.text (some (List.replicate (1024 + 1) 'a' ++ ['/', 'x'])),
          sqlite3_value.text (some "*".toList), sqlite3_value.integer 0, sqlite3_value.integer 0]
      = (PmatchResult.buffer_overrun, [PmatchCall.memcpy ((1024 + 1 : Nat) : Int)]) :=
  pmatch_long_prefix_overruns_buffer fnmatch_pathname 1024 "*".toList 0 (by decide)

/-! ## The busy-retry loop -/

theorem usleeps_append (a b : List Event) : usleeps (a ++ b) = usleeps a ++ usleeps b := by
  induction a with
  | nil => rfl
  | cons x xs ih => cases x <;> simp [usleeps, ih]

theorem table_reads_append (a b : List Event) :
    table_reads (a ++ b) = table_reads a ++ table_reads b := by
  induction a with
  | nil => rfl
  | cons x xs ih => cases x <;> simp [table_reads, ih]

theorem qprep_db_loop_quiet (prepare : Nat → Int) (query : String) (left i : Nat) (ret : Int) :
    usleeps (qprep_db_loop prepare query left i ret).2 = []
      ∧ table_reads (qprep_db_loop prepare query left i ret).2 = [] := by
  induction left generalizing i ret with
  | zero => simp [qprep_db_loop, usleeps, table_reads]
  | succ k ih =>
    unfold qprep_db_loop
    by_cases h : prepare i = SQLITE_BUSY
    · simp [h, usleeps, table_reads, ih]
    · simp [h, usleeps, table_reads]

theorem qprep_db_quiet (prepare : Nat → Int) (query : String) :
    usleeps (qprep_db prepare query).2 = [] ∧ table_reads (qprep_db prepare query).2 = [] := by
  have h := qprep_db_loop_quiet prepare query 30 0 SQLITE_OK
  simp only [qprep_db]
  split_ifs <;> exact h

theorem qstep_expect_quiet (step_rc expect : Int) :
    usleeps (qstep_expect step_rc expect).2 = []
      ∧ table_reads (qstep_expect step_rc expect).2 = [] := by
  simp only [qstep_expect, qstep]
  split_ifs <;> simp [usleeps, table_reads]

/-- The read of `PRAGMA busy_timeout` neither calls `usleep` nor reads the
backoff table. -/
theorem busy_timeout_read_quiet (o : StepObs) :
    usleeps (busy_timeout_read o).2 = [] ∧ table_reads (busy_timeout_read o).2 = [] := by
  have hp := qprep_db_quiet o.pragma_prepare "PRAGMA busy_timeout"
  have hs := qstep_expect_quiet o.pragma_step SQLITE_ROW
  simp only [busy_timeout_read, qstep_ret]
  split_ifs <;>
    simp [usleeps_append, table_reads_append, hp.1, hp.2, hs.1, hs.2, usleeps, table_reads]

/-- Every entry of the backoff table is at most 100 ms. -/
theorem us_delays_le (i us : Nat) (h : us_delays.get? i = some us) : us ≤ 100 * 1000 := by
  have hmem : us ∈ us_delays := List.get?_mem h
  simp only [us_delays, List.mem_cons, List.mem_singleton, List.not_mem_nil, or_false] at hmem
  omega

/-- The timeout in force during a busy pass: the one held on entry, or the
one read from the engine when none was held. -/
theorem qstep_retry_busy_timeout (us_delay curdelay ms_timeout : Nat) (o : StepObs) :
    (qstep_retry_busy us_delay curdelay ms_timeout o).ms_timeout
      = (if ms_timeout = 0 then (busy_timeout_read o).1 else ms_timeout) := by
  simp only [qstep_retry_busy]
  split_ifs <;> rfl

theorem qstep_retry_busy_curdelay (us_delay curdelay ms_timeout : Nat) (o : StepObs) :
    (qstep_retry_busy us_delay curdelay ms_timeout o).curdelay
      = (if curdelay < us_delays.length - 1 then curdelay + 1 else curdelay) := by
  simp only [qstep_retry_busy]
  split_ifs <;> rfl

theorem qstep_retry_busy_reads (us_delay curdelay ms_timeout : Nat) (o : StepObs) :
    table_reads (qstep_retry_busy us_delay curdelay ms_timeout o).events = [] := by
  have hq := (busy_timeout_read_quiet o).2
  simp only [qstep_retry_busy]
  split_ifs <;> simp [table_reads, table_reads_append, hq]

/-- A busy pass that finds the timeout elapsed leaves through `break`
without a call of `usleep`. -/
theorem qstep_retry_busy_break (us_delay curdelay ms_timeout : Nat) (o : StepObs)
    (h : (qstep_retry_busy us_delay curdelay ms_timeout o).ms_timeout ≤ o.ms_dt % 2 ^ 32) :
    (qstep_retry_busy us_delay curdelay ms_timeout o).slept = none
      ∧ usleeps (qstep_retry_busy us_delay curdelay ms_timeout o).events = [] := by
  have hq := (busy_timeout_read_quiet o).1
  rw [qstep_retry_busy_timeout] at h
  simp only [qstep_retry_busy]
  split_ifs at h ⊢ <;> first | omega | simp [usleeps, usleeps_append, hq]

/-- A busy pass that finds time left sleeps once, for the table entry or
for the wrapped remainder `(T - dt) * 1000 mod 2^32` if that is smaller. -/
theorem qstep_retry_busy_sleep (us_delay curdelay ms_timeout : Nat) (o : StepObs)
    (h : o.ms_dt % 2 ^ 32 < (if ms_timeout = 0 then busy_timeout_read o else (ms_timeout, [])).1) :
    qstep_retry_busy us_delay curdelay ms_timeout o
      = { curdelay := if curdelay < us_delays.length - 1 then curdelay + 1 else curdelay,
          ms_timeout := (if ms_timeout = 0 then busy_timeout_read o else (ms_timeout, [])).1,
          slept := some
            (if ((if ms_timeout = 0 then busy_timeout_read o else (ms_timeout, [])).1
                  - o.ms_dt % 2 ^ 32) * 1000 % 2 ^ 32 < us_delay
             then ((if ms_timeout = 0 then busy_timeout_read o else (ms_timeout, [])).1
                  - o.ms_dt % 2 ^ 32) * 1000 % 2 ^ 32
             else us_delay),
          events := Event.reset ::
            (if ms_timeout = 0 then busy_timeout_read o else (ms_timeout, [])).2 ++
            [Event.usleep
              (if ((if ms_timeout = 0 then busy_timeout_read o else (ms_timeout, [])).1
                    - o.ms_dt % 2 ^ 32) * 1000 % 2 ^ 32 < us_delay
               then ((if ms_timeout = 0 then busy_timeout_read o else (ms_timeout, [])).1
                    - o.ms_dt % 2 ^ 32) * 1000 % 2 ^ 32
               else us_delay)] } := by
  have hnot : ¬ (o.ms_dt % 2 ^ 32 ≥ (if ms_timeout = 0 then busy_timeout_read o
      else (ms_timeout, [])).1) := Nat.not_le.mpr h
  unfold qstep_retry_busy
  exact if_neg hnot

/-- C9: in a pass of the retry loop on a busy outcome, with `T` the busy
timeout in force (the one held from earlier passes, or read from the engine
in this pass) and `dt` the elapsed milliseconds: if `dt ≥ T` the pass calls
no `usleep` and the loop returns `SQLITE_BUSY` there; otherwise it calls
`usleep` once, with a duration that is at most the table entry of the pass,
at most 100 ms, and at most `(T - dt) * 1000` microseconds, so that elapsed
time plus sleep stays within `T`.  No bound is assumed on `T` and `dt`, so
the products may wrap modulo 2^32. -/
theorem qstep_retry_sleep_bound (us_delay curdelay ms_timeout : Nat) (o : StepObs)
    (rest : List StepObs) (hrc : o.rc = SQLITE_BUSY)
    (hus : us_delays.get? curdelay = some us_delay) :
    (qstep_retry_busy us_delay curdelay ms_timeout o).ms_timeout
        = (if ms_timeout = 0 then (busy_timeout_read o).1 else ms_timeout)
      ∧ ((qstep_retry_busy us_delay curdelay ms_timeout o).ms_timeout ≤ o.ms_dt % 2 ^ 32 →
          usleeps (qstep_retry_busy us_delay curdelay ms_timeout o).events = []
          ∧ qstep_retry_loop (o :: rest) curdelay ms_timeout
              = Except.ok (SQLITE_BUSY, Event.step :: Event.us_delays_read curdelay ::
                  (qstep_retry_busy us_delay curdelay ms_timeout o).events))
      ∧ (o.ms_dt % 2 ^ 32 < (qstep_retry_busy us_delay curdelay ms_timeout o).ms_timeout →
          ∃ s, usleeps (qstep_retry_busy us_delay curdelay ms_timeout o).events = [s]
            ∧ s ≤ us_delay ∧ s ≤ 100 * 1000
            ∧ s ≤ ((qstep_retry_busy us_delay curdelay ms_timeout o).ms_timeout
                    - o.ms_dt % 2 ^ 32) * 1000
            ∧ (o.ms_dt % 2 ^ 32) * 1000 + s
                ≤ (qstep_retry_busy us_delay curdelay ms_timeout o).ms_timeout * 1000) := by
  refine ⟨qstep_retry_busy_timeout us_delay curdelay ms_timeout o, ?_, ?_⟩
  · intro hge
    have hbr := qstep_retry_busy_break us_delay curdelay ms_timeout o hge
    refine ⟨hbr.2, ?_⟩
    rw [qstep_retry_loop, if_pos hrc, hus]
    simp only [hbr.1]
  · intro hlt
    have hus100 := us_delays_le curdelay us_delay hus
    have hq : usleeps (if ms_timeout = 0 then busy_timeout_read o else (ms_timeout, [])).2
        = [] := by
      split_ifs
      · exact (busy_timeout_read_quiet o).1
      · rfl
    have hTt : (qstep_retry_busy us_delay curdelay ms_timeout o).ms_timeout
        = (if ms_timeout = 0 then busy_timeout_read o else (ms_timeout, [])).1 := by
      rw [qstep_retry_busy_timeout]
      split_ifs <;> rfl
    rw [hTt] at hlt ⊢
    rw [qstep_retry_busy_sleep us_delay curdelay ms_timeout o hlt]
    generalize (if ms_timeout = 0 then busy_timeout_read o else (ms_timeout, [])) = t at *
    refine ⟨if (t.1 - o.ms_dt % 2 ^ 32) * 1000 % 2 ^ 32 < us_delay
      then (t.1 - o.ms_dt % 2 ^ 32) * 1000 % 2 ^ 32 else us_delay, ?_, ?_, ?_, ?_, ?_⟩
    · simp [usleeps, usleeps_append, hq]
    · split_ifs <;> omega
    · split_ifs <;> omega
    · split_ifs <;> omega
    · split_ifs <;> omega

theorem qstep_retry_sleep_bound_witness :
    (∃ s, usleeps (qstep_retry_busy 1000 0 0 timeout_wraps).events = [s]
      ∧ s ≤ 1000 ∧ s ≤ 100 * 1000
      ∧ s ≤ ((qstep_retry_busy 1000 0 0 timeout_wraps).ms_timeout
              - timeout_wraps.ms_dt % 2 ^ 32) * 1000
      ∧ (timeout_wraps.ms_dt % 2 ^ 32) * 1000 + s
          ≤ (qstep_retry_busy 1000 0 0 timeout_wraps).ms_timeout * 1000)
      ∧ (qstep_retry_busy 1000 0 0 timeout_wraps).ms_timeout = 4294968
      ∧ usleeps (qstep_retry_busy 1000 0 0 timeout_wraps).events = [704] :=
  ⟨(qstep_retry_sleep_bound 1000 0 0 timeout_wraps [] rfl rfl).2.2 (by decide),
    by decide, by decide⟩

/-- From a cursor inside the table, the loop never reads outside it, and
the `k`-th read of a completed run is at the cursor advanced `k` times and
capped at 11. -/
theorem qstep_retry_loop_reads (script : List StepObs) :
    ∀ (c T : Nat), c ≤ 11 →
      qstep_retry_loop script c T ≠ Except.error Fault.table_overrun
      ∧ ∀ r, qstep_retry_loop script c T = Except.ok r →
          ∀ k idx, (table_reads r.2).get? k = some idx → idx = min (c + k) 11 := by
  induction script with
  | nil =>
    intro c T _
    simp [qstep_retry_loop]
  | cons o rest ih =>
    intro c T hc
    by_cases hrc : o.rc = SQLITE_BUSY
    · have hlen : c < us_delays.length := by
        simp only [us_delays, List.length_cons, List.length_nil]
        omega
      obtain ⟨us, hus⟩ : ∃ us, us_delays.get? c = some us :=
        ⟨us_delays.get ⟨c, hlen⟩, List.get?_eq_get hlen⟩
      have hcur := qstep_retry_busy_curdelay us c T o
      have hreads := qstep_retry_busy_reads us c T o
      have hl12 : us_delays.length = 12 := rfl
      have hnext : (qstep_retry_busy us c T o).curdelay ≤ 11 := by
        rw [hcur, hl12]
        split_ifs <;> omega
      have hnext2 : ∀ k, min ((qstep_retry_busy us c T o).curdelay + k) 11
          = min (c + (k + 1)) 11 := by
        intro k
        rw [hcur, hl12]
        split_ifs <;> omega
      rw [qstep_retry_loop, if_pos hrc, hus]
      cases hs : (qstep_retry_busy us c T o).slept with
      | none =>
        simp only [hs]
        refine ⟨by simp, ?_⟩
        intro r hr k idx hk
        simp only [Except.ok.injEq] at hr
        subst hr
        simp only [table_reads, hreads] at hk
        cases k with
        | zero =>
          simp only [List.get?_cons_zero, Option.some.injEq] at hk
          omega
        | succ k => simp at hk
      | some sl =>
        obtain ⟨ih1, ih2⟩ := ih (qstep_retry_busy us c T o).curdelay
          (qstep_retry_busy us c T o).ms_timeout hnext
        cases hrec : qstep_retry_loop rest (qstep_retry_busy us c T o).curdelay
            (qstep_retry_busy us c T o).ms_timeout with
        | error f =>
          simp only [hs, hrec]
          refine ⟨?_, by simp⟩
          intro h
          simp only [Except.error.injEq] at h
          subst h
          exact ih1 hrec
        | ok r0 =>
          simp only [hs, hrec]
          refine ⟨by simp, ?_⟩
          intro r hr k idx hk
          simp only [Except.ok.injEq] at hr
          subst hr
          simp only [List.cons_append, table_reads, List.append_eq, table_reads_append, hreads,
            List.nil_append] at hk
          cases k with
          | zero =>
            simp only [List.get?_cons_zero, Option.some.injEq] at hk
            omega
          | succ k =>
            simp only [List.get?_cons_succ] at hk
            rw [← hnext2 k]
            exact ih2 r0 hrec k idx hk
    · rw [qstep_retry_loop, if_neg hrc]
      refine ⟨by simp, ?_⟩
      intro r hr k idx hk
      simp only [Except.ok.injEq] at hr
      subst hr
      simp [table_reads] at hk

/-- An engine that is busy `k` times and then grants the lock makes the
loop read the table exactly `k` times before it returns `SQLITE_DONE`. -/
theorem qstep_retry_loop_busy_then_done (k : Nat) :
    ∀ (c T : Nat), c ≤ 11 → (T = 0 ∨ T = 1000) →
      ∃ ev, qstep_retry_loop (busy_then_done k) c T = Except.ok (SQLITE_DONE, ev)
        ∧ (table_reads ev).length = k := by
  induction k with
  | zero =>
    intro c T _ _
    refine ⟨[Event.step], ?_, rfl⟩
    have hne : ¬ (done_pass.rc = SQLITE_BUSY) := by decide
    have hscript : busy_then_done 0 = [done_pass] := rfl
    rw [hscript, qstep_retry_loop, if_neg hne]
    rfl
  | succ k ih =>
    intro c T hc hT
    have hlen : c < us_delays.length := by
      simp only [us_delays, List.length_cons, List.length_nil]
      omega
    obtain ⟨us, hus⟩ : ∃ us, us_delays.get? c = some us :=
      ⟨us_delays.get ⟨c, hlen⟩, List.get?_eq_get hlen⟩
    have hreads := qstep_retry_busy_reads us c T busy_pass
    have hcur := qstep_retry_busy_curdelay us c T busy_pass
    have hl12 : us_delays.length = 12 := rfl
    have hread : (busy_timeout_read busy_pass).1 = 1000 := by decide
    have hT1 : (if T = 0 then busy_timeout_read busy_pass else (T, [])).1 = 1000 := by
      rcases hT with h | h
      · rw [if_pos h, hread]
      · rw [if_neg (by omega), h]
    have hlt : busy_pass.ms_dt % 2 ^ 32
        < (if T = 0 then busy_timeout_read busy_pass else (T, [])).1 := by
      rw [hT1]
      decide
    have hb := qstep_retry_busy_sleep us c T busy_pass hlt
    have hnext : (qstep_retry_busy us c T busy_pass).curdelay ≤ 11 := by
      rw [hcur, hl12]
      split_ifs <;> omega
    have hto : (qstep_retry_busy us c T busy_pass).ms_timeout = 1000 := by
      rw [hb]
      exact hT1
    obtain ⟨sl, hsl⟩ : ∃ sl, (qstep_retry_busy us c T busy_pass).slept = some sl := by
      rw [hb]
      exact ⟨_, rfl⟩
    obtain ⟨ev, hev, hcount⟩ := ih (qstep_retry_busy us c T busy_pass).curdelay
      (qstep_retry_busy us c T busy_pass).ms_timeout hnext (Or.inr hto)
    have hscript : busy_then_done (k + 1) = busy_pass :: busy_then_done k := rfl
    have hrc : busy_pass.rc = SQLITE_BUSY := rfl
    refine ⟨Event.step :: Event.us_delays_read c ::
      (qstep_retry_busy us c T busy_pass).events ++ ev, ?_, ?_⟩
    · rw [hscript, qstep_retry_loop, if_pos hrc, hus]
      simp only [hsl, hev]
    · simp only [List.cons_append, table_reads, List.append_eq, table_reads_append, hreads,
        List.nil_append, List.length_cons, hcount]

/-- C10: the backoff table has twelve entries, is non-decreasing, starts at
1 ms and ends at 100 ms.  No run of `qstep_retry` reads it out of bounds;
in a completed run the `k`-th busy pass reads index `min k 11`; runs with
any number `k` of busy passes exist.  The delays so read are non-decreasing
in `k` and equal to the last entry from `k = 11` on. -/
theorem us_delays_cursor :
    us_delays.length = 12
      ∧ us_delays.Pairwise (fun a b => a ≤ b)
      ∧ us_delays.head? = some (1 * 1000)
      ∧ us_delays.getLast? = some (100 * 1000)
      ∧ (∀ script, qstep_retry script ≠ Except.error Fault.table_overrun)
      ∧ (∀ script r, qstep_retry script = Except.ok r →
          ∀ k idx, (table_reads r.2).get? k = some idx →
            idx = min k 11 ∧ idx < us_delays.length)
      ∧ (∀ k, ∃ ev, qstep_retry (busy_then_done k) = Except.ok (SQLITE_DONE, ev)
          ∧ (table_reads ev).length = k)
      ∧ (∀ j k, j ≤ k → us_delays.getD (min j 11) 0 ≤ us_delays.getD (min k 11) 0)
      ∧ (∀ k, 11 ≤ k → us_delays.getD (min k 11) 0 = 100 * 1000) := by
  refine ⟨rfl, by decide, rfl, rfl, ?_, ?_, ?_, ?_, ?_⟩
  · intro script
    exact (qstep_retry_loop_reads script 0 0 (by omega)).1
  · intro script r hr k idx hk
    have h := (qstep_retry_loop_reads script 0 0 (by omega)).2 r hr k idx hk
    simp only [Nat.zero_add] at h
    have hl12 : us_delays.length = 12 := rfl
    refine ⟨h, ?_⟩
    rw [hl12]
    omega
  · intro k
    exact qstep_retry_loop_busy_then_done k 0 0 (by omega) (Or.inl rfl)
  · intro j k hjk
    have hj : min j 11 ≤ 11 := Nat.min_le_right _ _
    have hk : min k 11 ≤ 11 := Nat.min_le_right _ _
    have hle : min j 11 ≤ min k 11 := by omega
    generalize min j 11 = a at *
    generalize min k 11 = b at *
    have key : ∀ a < 12, ∀ b < 12, a ≤ b → us_delays.getD a 0 ≤ us_delays.getD b 0 := by
      decide
    exact key a (by omega) b (by omega) hle
  · intro k hk
    have : min k 11 = 11 := by omega
    rw [this]
    rfl

/-! ## Checkpoints -/

theorem qcheckpoint_run_some (d : sxi_db_t) (kind rc log ckpt : Int) :
    qcheckpoint_run (some d) kind rc log ckpt
      = (some { d with wal_pages := 0 }, [Event.wal_checkpoint kind]) := rfl

/-- C11: on a connection, `qcheckpoint_idle` makes a checkpoint exactly
when the change counter differs from `last_total_changes` and the time
since `tv_last` has reached `db_idle_restart`; it then makes one checkpoint,
a passive one, and leaves `last_total_changes` at the current counter and
`tv_last` at the current time.  When either condition fails it makes no
checkpoint and returns the connection unchanged. -/
theorem qcheckpoint_idle_fires_iff (R : Type) (inst : LinearOrder R)
    (timediff : timeval → timeval → R) (db_idle_restart : R) (d : sxi_db_t) (changes : Int)
    (now : timeval) (rc log ckpt : Int) :
    (checkpoints (qcheckpoint_idle timediff db_idle_restart (some d) changes now rc log ckpt).2
          ≠ []
        ↔ (changes ≠ d.last_total_changes ∧ db_idle_restart ≤ timediff d.tv_last now))
      ∧ (checkpoints (qcheckpoint_idle timediff db_idle_restart (some d) changes now rc log ckpt).2
            = []
          ∨ checkpoints
              (qcheckpoint_idle timediff db_idle_restart (some d) changes now rc log ckpt).2
            = [SQLITE_CHECKPOINT_PASSIVE])
      ∧ (¬ (changes ≠ d.last_total_changes ∧ db_idle_restart ≤ timediff d.tv_last now) →
          (qcheckpoint_idle timediff db_idle_restart (some d) changes now rc log ckpt).1
            = some d)
      ∧ ((changes ≠ d.last_total_changes ∧ db_idle_restart ≤ timediff d.tv_last now) →
          (qcheckpoint_idle timediff db_idle_restart (some d) changes now rc log ckpt).1
            = some { d with wal_pages := 0, tv_last := now, last_total_changes := changes }) := by
  by_cases h1 : changes = d.last_total_changes
  · simp [qcheckpoint_idle, h1, checkpoints]
  · by_cases h2 : db_idle_restart ≤ timediff d.tv_last now
    · simp [qcheckpoint_idle, h1, h2, checkpoints, qcheckpoint_run]
    · simp [qcheckpoint_idle, h1, h2, checkpoints]

/-- C13: on a connection, `wal_pages` is 0 after `qcheckpoint_run` for
every kind of checkpoint and every answer of the engine; hence after
`qcheckpoint`, after a `qcheckpoint_idle` that makes a checkpoint, and after
a `qwal_hook` that makes one. -/
theorem wal_pages_zero_after_checkpoint (d : sxi_db_t) (kind rc log ckpt : Int) :
    (∃ d1, (qcheckpoint_run (some d) kind rc log ckpt).1 = some d1 ∧ d1.wal_pages = 0)
      ∧ (∀ max_restart : Int,
          ∃ d1, (qcheckpoint max_restart (some d) rc log ckpt).1 = some d1 ∧ d1.wal_pages = 0)
      ∧ (∀ (R : Type) (_ : LinearOrder R) (timediff : timeval → timeval → R)
          (db_idle_restart : R) (changes : Int) (now : timeval),
          checkpoints (qcheckpoint_idle timediff db_idle_restart (some d) changes now
              rc log ckpt).2 ≠ [] →
            ∃ d1, (qcheckpoint_idle timediff db_idle_restart (some d) changes now
              rc log ckpt).1 = some d1 ∧ d1.wal_pages = 0)
      ∧ (∀ (max_passive max_restart pages : Int) (now : timeval),
          checkpoints (qwal_hook max_passive max_restart (some d) pages now rc log ckpt).2.2
              ≠ [] →
            ∃ d1, (qwal_hook max_passive max_restart (some d) pages now rc log ckpt).2.1
              = some d1 ∧ d1.wal_pages = 0) := by
  refine ⟨⟨_, rfl, rfl⟩, ?_, ?_, ?_⟩
  · intro max_restart
    by_cases h : d.wal_pages ≥ max_restart
    · exact ⟨{ d with wal_pages := 0 }, by simp [qcheckpoint, h, qcheckpoint_run], rfl⟩
    · exact ⟨{ d with wal_pages := 0 }, by simp [qcheckpoint, h, qcheckpoint_run], rfl⟩
  · intro R _ timediff db_idle_restart changes now hfire
    by_cases h1 : changes = d.last_total_changes
    · simp [qcheckpoint_idle, h1, checkpoints] at hfire
    · by_cases h2 : db_idle_restart ≤ timediff d.tv_last now
      · exact ⟨{ d with wal_pages := 0, tv_last := now, last_total_changes := changes },
          by simp [qcheckpoint_idle, h1, h2, qcheckpoint_run], rfl⟩
      · simp [qcheckpoint_idle, h1, h2, checkpoints] at hfire
  · intro max_passive max_restart pages now hfire
    by_cases h : pages ≥ max_passive
    · by_cases h2 : pages ≥ max_restart
      · exact ⟨{ d with tv_last := if d.wal_pages = 0 then now else d.tv_last, wal_pages := 0 },
          by simp [qwal_hook, h, qcheckpoint, h2, qcheckpoint_run], rfl⟩
      · exact ⟨{ d with tv_last := if d.wal_pages = 0 then now else d.tv_last, wal_pages := 0 },
          by simp [qwal_hook, h, qcheckpoint, h2, qcheckpoint_run], rfl⟩
    · simp [qwal_hook, h, checkpoints] at hfire

/-- C12, as stated, fails on the code: with a max-passive threshold of
10000, a max-restart threshold of 20000 and a reported frame count of
exactly 10000, which does not exceed the max-passive threshold, `qwal_hook`
makes a checkpoint. -/
theorem qwal_hook_checkpoints_at_threshold :
    ¬ (checkpoints (qwal_hook 10000 20000 (some idle_db) 10000 ⟨0, 0⟩ 0 0 0).2.2 ≠ []
        ↔ (10000 : Int) < 10000) := by
  decide

/-- C12, amended: on a connection, `qwal_hook` makes a checkpoint exactly
when the reported frame count has reached `db_max_passive_wal_pages` (a
count equal to the threshold triggers one); it makes a single checkpoint,
in restart mode exactly when the count has reached
`db_max_restart_wal_pages`, in passive mode otherwise. -/
theorem qwal_hook_checkpoint_iff (max_passive max_restart : Int) (d : sxi_db_t) (pages : Int)
    (now : timeval) (rc log ckpt : Int) :
    (checkpoints (qwal_hook max_passive max_restart (some d) pages now rc log ckpt).2.2 ≠ []
        ↔ max_passive ≤ pages)
      ∧ checkpoints (qwal_hook max_passive max_restart (some d) pages now rc log ckpt).2.2
        = (if max_passive ≤ pages then
            [if max_restart ≤ pages then SQLITE_CHECKPOINT_RESTART
              else SQLITE_CHECKPOINT_PASSIVE]
          else []) := by
  by_cases h : max_passive ≤ pages
  · by_cases h2 : max_restart ≤ pages
    · simp [qwal_hook, h, qcheckpoint, h2, qcheckpoint_run, checkpoints]
    · simp [qwal_hook, h, qcheckpoint, h2, qcheckpoint_run, checkpoints]
  · simp [qwal_hook, h, checkpoints]

/-! ## Log classification -/

/-- C14: the priority `qlog` gives to a result code is the one it gives to
its low eight bits.  It logs nothing for `SQLITE_OK`, `SQLITE_ROW`,
`SQLITE_DONE` and `SQLITE_CONSTRAINT`; it logs at debug for `SQLITE_SCHEMA`,
at info for `SQLITE_BUSY`, at notice for `SQLITE_NOTICE`, at critical for
`SQLITE_IOERR`, `SQLITE_CANTOPEN` and `SQLITE_NOTADB`, at alert for
`SQLITE_CORRUPT` and `SQLITE_FULL`, and at warning for every other code.
So the extended codes `SQLITE_BUSY_RECOVERY` (261), `SQLITE_IOERR_READ`
(266) and `SQLITE_CONSTRAINT_UNIQUE` (2067) are classified as busy, I/O
error and constraint. -/
theorem qlog_classification (errcode : Int) :
    (qlog errcode).map Prod.fst = (qlog (errcode % 256)).map Prod.fst
      ∧ (qlog errcode = none
          ↔ errcode % 256 = SQLITE_OK ∨ errcode % 256 = SQLITE_ROW
            ∨ errcode % 256 = SQLITE_DONE ∨ errcode % 256 = SQLITE_CONSTRAINT)
      ∧ (qlog errcode = some (LogPrio.SX_LOG_DEBUG, errcode) ↔ errcode % 256 = SQLITE_SCHEMA)
      ∧ (qlog errcode = some (LogPrio.SX_LOG_INFO, errcode) ↔ errcode % 256 = SQLITE_BUSY)
      ∧ (qlog errcode = some (LogPrio.SX_LOG_NOTICE, errcode) ↔ errcode % 256 = SQLITE_NOTICE)
      ∧ (qlog errcode = some (LogPrio.SX_LOG_CRIT, errcode)
          ↔ errcode % 256 = SQLITE_IOERR ∨ errcode % 256 = SQLITE_CANTOPEN
            ∨ errcode % 256 = SQLITE_NOTADB)
      ∧ (qlog errcode = some (LogPrio.SX_LOG_ALERT, errcode)
          ↔ errcode % 256 = SQLITE_CORRUPT ∨ errcode % 256 = SQLITE_FULL)
      ∧ (qlog errcode = some (LogPrio.SX_LOG_WARNING, errcode)
          ↔ errcode % 256 ∉ [SQLITE_OK, SQLITE_ROW, SQLITE_DONE, SQLITE_CONSTRAINT,
              SQLITE_SCHEMA, SQLITE_BUSY, SQLITE_NOTICE, SQLITE_IOERR, SQLITE_CANTOPEN,
              SQLITE_NOTADB, SQLITE_CORRUPT, SQLITE_FULL])
      ∧ qlog 261 = some (LogPrio.SX_LOG_INFO, 261)
      ∧ qlog 266 = some (LogPrio.SX_LOG_CRIT, 266)
      ∧ qlog 2067 = none := by
  have hmod : errcode % 256 % 256 = errcode % 256 := Int.emod_emod_of_dvd errcode (dvd_refl 256)
  refine ⟨?_, ?_, ?_, ?_, ?_, ?_, ?_, ?_, by decide, by decide, by decide⟩
  · simp only [qlog, hmod]
    split_ifs <;> rfl
  all_goals
    simp only [qlog, SQLITE_OK, SQLITE_ROW, SQLITE_DONE, SQLITE_CONSTRAINT, SQLITE_SCHEMA,
      SQLITE_BUSY, SQLITE_NOTICE, SQLITE_IOERR, SQLITE_CANTOPEN, SQLITE_NOTADB, SQLITE_CORRUPT,
      SQLITE_FULL]
    generalize errcode % 256 = c
    split_ifs <;> simp_all <;> omega

end Sxdbi
